import Mathlib

/-
Verification of the SEAL-js core (src/seal.ts) against its design document.

The TypeScript source is shallowly embedded below.  String-manipulating
primitives of JavaScript (split, replace, substring, includes, parseInt)
are modelled on `List Char` / `String`; numbers are `Int` (no overflow
concerns arise: all arithmetic stays far below 2^53).  Fallible code is
modelled with `Except` / `Option`, and the promise-based orchestrator is
modelled with an explicit outcome type that distinguishes a promise that
resolves, one that rejects, and one that never settles.
-/

/-! ## JavaScript string primitives -/

/-- Index of the first occurrence of `pat` inside `cs` (leftmost match),
mirroring JavaScript `indexOf` semantics (`some 0` for the empty pattern). -/
def findSub (cs pat : List Char) : Option Nat :=
  if pat.isPrefixOf cs then some 0
  else
    match cs with
    | [] => none
    | _ :: rest => (findSub rest pat).map (fun i => i + 1)

/-- Model of JavaScript `String.prototype.includes`. -/
def jsIncludes (s pat : String) : Bool :=
  (findSub s.toList pat.toList).isSome

/-- Number of non-overlapping occurrences of `pat` in `cs` (fuelled scan). -/
def countOccurAux : Nat → List Char → List Char → Nat
  | 0, _, _ => 0
  | fuel + 1, cs, pat =>
    match findSub cs pat with
    | none => 0
    | some i => 1 + countOccurAux fuel (cs.drop (i + max pat.length 1)) pat

/-- Number of non-overlapping occurrences of `pat` in `s`. -/
def countOccur (s pat : String) : Nat :=
  countOccurAux (s.length + 1) s.toList pat.toList

/-- Model of JavaScript `String.prototype.split` with a non-empty string
separator: `"a~b".split("~") = ["a", "b"]`, `"".split("~") = [""]`. -/
def jsSplitAux : Nat → List Char → List Char → List String
  | 0, cs, _ => [cs.asString]
  | fuel + 1, cs, sep =>
    match findSub cs sep with
    | none => [cs.asString]
    | some i => (cs.take i).asString :: jsSplitAux fuel (cs.drop (i + sep.length)) sep

/-- Model of JavaScript `String.prototype.split` (string separator). -/
def jsSplit (s sep : String) : List String :=
  jsSplitAux (s.length + 1) s.toList sep.toList

/-- Model of JavaScript `String.prototype.replace` with a *string* pattern:
only the first occurrence is replaced. -/
def jsReplaceFirst (s pat rep : String) : String :=
  match findSub s.toList pat.toList with
  | none => s
  | some i => (s.toList.take i ++ rep.toList ++ s.toList.drop (i + pat.length)).asString

/-- Model of JavaScript `String.prototype.replace` with a global regex whose
pattern is a literal string: every occurrence is replaced. -/
def jsReplaceAllAux : Nat → List Char → List Char → List Char → List Char
  | 0, cs, _, _ => cs
  | fuel + 1, cs, pat, rep =>
    match findSub cs pat with
    | none => cs
    | some i => cs.take i ++ rep ++ jsReplaceAllAux fuel (cs.drop (i + pat.length)) pat rep

/-- Replace every occurrence of `pat` in `s` by `rep`. -/
def jsReplaceAll (s pat rep : String) : String :=
  (jsReplaceAllAux (s.length + 1) s.toList pat.toList rep.toList).asString

/-- Decimal value of a digit list. -/
def digitsToNat (cs : List Char) : Nat :=
  cs.foldl (fun n c => 10 * n + (c.toNat - 48)) 0

/-- Model of JavaScript `parseInt` on the inputs the source feeds it: an
optional sign followed by a maximal run of leading decimal digits; `none`
models `NaN` (no leading digit).  The hexadecimal and whitespace handling of
full `parseInt` is irrelevant to the strings produced by the splits in the
source. -/
def jsParseInt (s : String) : Option Int :=
  match s.toList with
  | '-' :: rest =>
    let ds := rest.takeWhile Char.isDigit
    if ds.isEmpty then none else some (-(digitsToNat ds : Int))
  | '+' :: rest =>
    let ds := rest.takeWhile Char.isDigit
    if ds.isEmpty then none else some ((digitsToNat ds : Int))
  | cs =>
    let ds := cs.takeWhile Char.isDigit
    if ds.isEmpty then none else some ((digitsToNat ds : Int))

/-- Model of JavaScript `String.prototype.substring`: both arguments are
clamped into `[0, length]` and swapped when out of order. -/
def jsSubstring (s : String) (a b : Int) : String :=
  let len : Int := s.length
  let a' : Nat := (min (max a 0) len).toNat
  let b' : Nat := (min (max b 0) len).toNat
  let lo := min a' b'
  let hi := max a' b'
  ((s.toList.drop lo).take (hi - lo)).asString

/-- Model of JavaScript `charAt(length - 1)`: the last character as a
one-character string, or the empty string for the empty string. -/
def lastCharStr (s : String) : String :=
  match s.toList.getLast? with
  | some c => String.singleton c
  | none => ""

/-! ## Record parser (SEAL.parse)

The located record segment carries the substring containing the embedded
record and the byte offset at which the signature segment ends.  `parse`
first shifts that offset backward by 5 when the raw segment uses
`&quot;`-escaped quotes, then strips the envelope, extracts the
`key="value"` pairs and normalizes the digest algorithm. -/

/-- A located record segment: its raw text and the signature end offset. -/
structure Segment where
  segString : String
  signatureEnd : Int
deriving DecidableEq

/-- The error names of the ValidationError class in the source. -/
inductive ErrName
  | DNS_LOOKUP
  | SEAL_RECORD_MISSING_PARAMETERS
  | KEY_IMPORT_ERROR
  | DIGEST_MISSING
  | DIGEST_ERROR
  | VALIDATION_MISSING_PARAMETERS
  | SIGNATURE_VERIFY_ERROR
  | SIGNATURE_MISSING
  | SIGNATURE_FORMAT
deriving DecidableEq

/-- Length of a match of the regex `<.{0,1}seal ` at the head of `cs`
(the greedy `.{0,1}` tries one character first). -/
def matchOpenTagLen (cs : List Char) : Option Nat :=
  match cs with
  | c0 :: rest =>
    if c0 == '<' then
      match rest with
      | _ :: rest2 =>
        if ("seal ".toList).isPrefixOf rest2 then some 7
        else if ("seal ".toList).isPrefixOf rest then some 6
        else none
      | [] => none
    else none
  | [] => none

/-- Length of a match of the regex `\?{0,1}\/>` at the head of `cs`. -/
def matchCloseTagLen (cs : List Char) : Option Nat :=
  if ("?/>".toList).isPrefixOf cs then some 3
  else if ("/>".toList).isPrefixOf cs then some 2
  else none

/-- Remove the first (leftmost) match of a regex, given its
match-at-position function; models non-global `String.prototype.replace`
with an empty replacement. -/
def replaceFirstMatchAux (m : List Char → Option Nat) : Nat → List Char → List Char
  | 0, cs => cs
  | fuel + 1, cs =>
    match m cs with
    | some n => cs.drop n
    | none =>
      match cs with
      | [] => []
      | c :: rest => c :: replaceFirstMatchAux m fuel rest

/-- Remove the first match of a regex from `s`. -/
def replaceFirstMatch (m : List Char → Option Nat) (s : String) : String :=
  (replaceFirstMatchAux m (s.length + 1) s.toList).asString

/-- The envelope-stripping chain of `parse` (source lines 214 to 220), in
source order: strip `<.{0,1}seal `, strip `\?{0,1}\/>`, unescape every
`&quot;`, then strip the first `<seal:seal>`, `/&` and `&lt;seal `. -/
def cleanSegment (s : String) : String :=
  let s1 := replaceFirstMatch matchOpenTagLen s
  let s2 := replaceFirstMatch matchCloseTagLen s1
  let s3 := jsReplaceAll s2 "&quot;" "\""
  let s4 := jsReplaceFirst s3 "<seal:seal>" ""
  let s5 := jsReplaceFirst s4 "/&" ""
  jsReplaceFirst s5 "&lt;seal " ""

/-- Scanner equivalent of the global lazy regex ` ?(.*?)=\"(.*?)\"` of the
source: at the current position, a match consumes one optional leading
space, the (lazily shortest) key up to the next occurrence of the two
characters equal sign and double quote, and the value up to the following
double quote.  Matches can never be empty (each contains at least three
characters), so the zero-length-match guard of the source loop never fires.
The model assumes the segment carries no newline characters, which holds
for SEAL records. -/
def extractPairsAux : Nat → List Char → List (String × String)
  | 0, _ => []
  | fuel + 1, cs =>
    match findSub cs ("=\"".toList) with
    | none => []
    | some i =>
      let afterEq := cs.drop (i + 2)
      match findSub afterEq ("\"".toList) with
      | none => []
      | some j =>
        let keyRaw := cs.take i
        let key := match keyRaw with
          | c :: rest => if c == ' ' then rest else keyRaw
          | [] => []
        (key.asString, (afterEq.take j).asString) :: extractPairsAux fuel (afterEq.drop (j + 1))

/-- All `key="value"` pairs of a cleaned segment, in left-to-right order. -/
def extractPairs (s : String) : List (String × String) :=
  extractPairsAux (s.length + 1) s.toList

/-- JavaScript object property assignment on an association list: an
existing slot for the key is overwritten in place, otherwise the pair is
appended. -/
def setAttr : List (String × String) → String → String → List (String × String)
  | [], k, v => [(k, v)]
  | (k', v') :: rest, k, v =>
    if k' == k then (k', v) :: rest else (k', v') :: setAttr rest k v

/-- JavaScript object property read. -/
def getAttr (m : List (String × String)) (k : String) : Option String :=
  (m.find? (fun kv => kv.1 == k)).map (fun kv => kv.2)

/-- The extraction loop of `parse` (source lines 230 to 237):
`sealRecord[match[1]] = match[2]` for each pair in order. -/
def buildRecord (pairs : List (String × String)) : List (String × String) :=
  pairs.foldl (fun m kv => setAttr m kv.1 kv.2) []

/-- Intended value of the record for a key that occurs possibly many times:
the value of the last (rightmost) occurrence. -/
def lastValue : List (String × String) → String → Option String
  | [], _ => none
  | p :: ps, k =>
    match lastValue ps k with
    | some v => some v
    | none => if p.1 == k then some p.2 else none

/-- The `switch (sealRecord.da)` normalization of the source (lines 243 to
259): four exact lowercase tokens are recognized, everything else falls to
the default branch. -/
def daSwitch (s : String) : String :=
  if s == "sha256" then "SHA-256"
  else if s == "sha384" then "SHA-384"
  else if s == "sha512" then "SHA-512"
  else if s == "sha1" then "SHA-1"
  else "SHA-256"

/-- Digest-algorithm resolution of `parse`: a missing or empty (falsy) `da`
attribute becomes `sha256` first, then the switch runs. -/
def resolveDa (da : Option String) : String :=
  let t := match da with
    | none => "sha256"
    | some s => if s == "" then "sha256" else s
  daSwitch t

/-- ASCII lowercase of one character. -/
def lowerChar (c : Char) : Char :=
  if 65 ≤ c.toNat ∧ c.toNat ≤ 90 then Char.ofNat (c.toNat + 32) else c

/-- ASCII lowercase of a string. -/
def strToLower (s : String) : String :=
  (s.toList.map lowerChar).asString

/-- Spec-side definition following the claim wording: the textual token is
mapped case-insensitively onto the four digest algorithms. -/
def daCaseInsensitiveSpec (s : String) : String :=
  daSwitch (strToLower s)

/-- Truthiness of a record attribute (present and non-empty). -/
def truthyAttr (m : List (String × String)) (k : String) : Bool :=
  match getAttr m k with
  | some v => !(v == "")
  | none => false

/-- Full model of `SEAL.parse`: the (possibly shifted) segment together
with the parsed record or the incompleteness error.  Note that the
backward shift of `signature_end` for entity-escaped input is performed
here, by the parser itself, on the asset segment. -/
def parseSeal (seg : Segment) : Segment × Except ErrName (List (String × String)) :=
  let seg' := if jsIncludes seg.segString "&quot;"
    then { seg with signatureEnd := seg.signatureEnd - 5 } else seg
  let rec0 := buildRecord (extractPairs (cleanSegment seg.segString))
  let rec1 := setAttr rec0 "da" (resolveDa (getAttr rec0 "da"))
  if truthyAttr rec1 "seal" && truthyAttr rec1 "d" && truthyAttr rec1 "ka" && truthyAttr rec1 "s" then
    (seg', Except.ok rec1)
  else
    (seg', Except.error ErrName.SEAL_RECORD_MISSING_PARAMETERS)

/-! ## Signature-format processing (doubleDigest, source lines 622 to 663)

The working state mirrors the fields of the validation context the token
loop touches: the working signature text, the extracted timestamp and the
recorded encoding. -/

/-- Working state of the signature-format token loop. -/
structure SigProc where
  signature : String
  signature_date : Option String
  signature_encoding : String
deriving DecidableEq

/-- One iteration of the `signature_formats.forEach` loop.  `s` is the raw
stored signature text `record.s`; note that the date branch always slices
the raw `record.s`, not the current working signature.  The guard on the
working signature before the `replace` call in the source is dropped: a
replace on the empty string is the identity either way. -/
def processSigFormat (s : String) (st : SigProc) (format : String) : SigProc :=
  let st1 :=
    if format == "base64" || format == "hex" || format == "HEX" || format == "bin" then
      { st with signature_encoding := format,
                signature := jsReplaceFirst st.signature (format ++ ":") "" }
    else st
  if jsIncludes format "date" then
    match jsParseInt (lastCharStr format) with
    | none =>
      { st1 with signature := jsSubstring s 15 s.length,
                 signature_date := some (jsSubstring s 0 14) }
    | some accuracy =>
      { st1 with signature := jsSubstring s (16 + accuracy) s.length,
                 signature_date := some (jsSubstring s 0 (15 + accuracy)) }
  else st1

/-- The signature-format stage of `doubleDigest`: split the `sf` attribute
on colons (a falsy `sf` yields no tokens), fold the token processor over
the tokens, and default the encoding to base64 when there is no token. -/
def doubleDigestSig (sf : Option String) (s : String) : SigProc :=
  let formats : List String :=
    match sf with
    | some f => if f == "" then [] else jsSplit f ":"
    | none => []
  if formats.length > 0 then
    formats.foldl (processSigFormat s) ⟨s, none, ""⟩
  else
    ⟨s, none, "base64"⟩

/-! ## Range resolver (digest, source lines 490 to 597) -/

/-- The geometry a range expression is resolved against: the asset size,
the signature segment end offset and the length of the stored signature
text `record.s`. -/
structure Geometry where
  size : Int
  signatureEnd : Int
  sigLen : Int
deriving DecidableEq

/-- Anchor resolution of the `switch` statements in `digest`: `F` is the
file start, `f` the file end, `S` the signature start, `s` the signature
end, `P` and `p` are reserved and resolve to 0; anything else rejects. -/
def anchorValue (g : Geometry) (t : String) : Option Int :=
  if t == "F" then some 0
  else if t == "f" then some g.size
  else if t == "S" then some (g.signatureEnd - g.sigLen)
  else if t == "s" then some g.signatureEnd
  else if t == "P" then some 0
  else if t == "p" then some 0
  else none

/-- NaN-propagating addition (`none` models NaN). -/
def optAdd : Option Int → Option Int → Option Int
  | some a, some b => some (a + b)
  | _, _ => none

/-- One endpoint token of a range: the source splits the token on the minus
sign and on the plus sign (both from the original token), keeps the parsed
offsets when the second piece is truthy, resolves the remaining anchor
text, and computes `anchor + add + sub` (source lines 497 to 548; the
minus offset is added as well). -/
def resolveEndpoint (g : Geometry) (tok : String) : Except Unit (Option Int) :=
  let subParts := jsSplit tok "-"
  let addParts := jsSplit tok "+"
  let sub1 := (subParts.get? 1).getD ""
  let add1 := (addParts.get? 1).getD ""
  let t1 := if !(sub1 == "") then subParts.headD "" else tok
  let subv : Option Int := if !(sub1 == "") then jsParseInt sub1 else some 0
  let t2 := if !(add1 == "") then addParts.headD "" else t1
  let addv : Option Int := if !(add1 == "") then jsParseInt add1 else some 0
  match anchorValue g t2 with
  | none => Except.error ()
  | some base => Except.ok (optAdd (optAdd (some base) addv) subv)

/-- One `start~stop` token.  A token without a tilde leaves the stop text
undefined and the subsequent split on it throws, aborting the computation;
both abnormal ends are collapsed into the error case. -/
def resolveRange (g : Geometry) (tok : String) : Except Unit (Option Int × Option Int) :=
  let parts := jsSplit tok "~"
  match parts.get? 1 with
  | none => Except.error ()
  | some stopTok =>
    match resolveEndpoint g (parts.headD "") with
    | Except.error e => Except.error e
    | Except.ok a =>
      match resolveEndpoint g stopTok with
      | Except.error e => Except.error e
      | Except.ok b => Except.ok (a, b)

/-- All ranges of a comma-separated range expression, in expression order.
On a bad token the source rejects its promise with the first error (the
`forEach` keeps iterating, but every later push is unobservable because the
promise is already settled); the model returns the first error. -/
def resolveRangesList (g : Geometry) : List String → Except Unit (List (Option Int × Option Int))
  | [] => Except.ok []
  | t :: ts =>
    match resolveRange g t with
    | Except.error e => Except.error e
    | Except.ok r =>
      match resolveRangesList g ts with
      | Except.error e => Except.error e
      | Except.ok rs => Except.ok (r :: rs)

/-- Resolve a whole `b` range expression. -/
def resolveRanges (g : Geometry) (b : String) : Except Unit (List (Option Int × Option Int)) :=
  resolveRangesList g (jsSplit b ",")

/-- Outcome of the digest-stage promise. -/
inductive DigestOutcome
  | computed (ranges : List (Option Int × Option Int))
  | failed
  | neverSettles
deriving DecidableEq

/-- The digest stage as a promise: when `record.b` is falsy the body never
calls resolve nor reject (source line 490: the whole body sits inside
`if (this.record.b)` with no else branch), so the promise never settles.
Otherwise the ranges are resolved and the digest capability (modelled by
the boolean `cryptoOk`) runs on their concatenation. -/
def digestRun (g : Geometry) (b : Option String) (cryptoOk : Bool) : DigestOutcome :=
  match b with
  | none => DigestOutcome.neverSettles
  | some expr =>
    if expr == "" then DigestOutcome.neverSettles
    else
      match resolveRanges g expr with
      | Except.error _ => DigestOutcome.failed
      | Except.ok rs => if cryptoOk then DigestOutcome.computed rs else DigestOutcome.failed

/-! ## Verification orchestrator (validateSig, source lines 282 to 470)

The collaborators that cross an external boundary (DNS, WebCrypto) are
modelled by boolean outcomes.  The outcome type records how the promise
returned by `validateSig` ends: resolving with the informational
no-signature result, resolving with a validity verdict, rejecting with a
ValidationError, or never settling. -/

/-- The pipeline stages that run after parsing. -/
inductive Stage
  | dnsLookup
  | digestStage
  | doubleDigestStage
  | keyImport
  | verify
deriving DecidableEq

/-- The external outcomes one verification pass can encounter. -/
structure PipelineEnv where
  hasSegments : Bool
  recordComplete : Bool
  cacheHit : Bool
  dnsOk : Bool
  usableKey : Bool
  hasRange : Bool
  digestOk : Bool
  decodeOk : Bool
  signatureNonempty : Bool
  keyImportOk : Bool
  verifyResult : Option Bool
deriving DecidableEq

/-- How the promise returned by `validateSig` ends. -/
inductive Outcome
  | informational
  | result (valid : Bool)
  | errored (e : ErrName)
  | pending
deriving DecidableEq

/-- The control flow of `validateSig`: the stages that execute, and the
settled outcome of the returned promise.  Faithful points: a parse throw
escapes the async executor, so the promise never settles; a DNS failure
returns early; a digest, double-digest or key-import rejection settles the
promise (first rejection wins) but does not stop the later stages from
executing; an absent byte range leaves the digest promise pending, so the
await never resumes; verify only runs when the double digest, a non-empty
working signature and an imported key are all present. -/
def runPipeline (env : PipelineEnv) : List Stage × Outcome :=
  if !env.hasSegments then ([], Outcome.informational)
  else if !env.recordComplete then ([], Outcome.pending)
  else if !env.cacheHit && (!env.dnsOk || !env.usableKey) then
    ([Stage.dnsLookup], Outcome.errored ErrName.DNS_LOOKUP)
  else
    let stages0 : List Stage := if env.cacheHit then [] else [Stage.dnsLookup]
    if !env.hasRange then (stages0 ++ [Stage.digestStage], Outcome.pending)
    else
      let firstErr : Option ErrName :=
        if !env.digestOk then some ErrName.DIGEST_ERROR
        else if !env.decodeOk then some ErrName.DIGEST_ERROR
        else if !env.keyImportOk then some ErrName.KEY_IMPORT_ERROR
        else none
      let canVerify := env.digestOk && env.decodeOk && env.signatureNonempty && env.keyImportOk
      let stages := stages0 ++ [Stage.digestStage, Stage.doubleDigestStage, Stage.keyImport]
          ++ (if canVerify then [Stage.verify] else [])
      let outcome :=
        match firstErr with
        | some e => Outcome.errored e
        | none =>
          if canVerify then
            match env.verifyResult with
            | none => Outcome.errored ErrName.SIGNATURE_VERIFY_ERROR
            | some b => Outcome.result b
          else Outcome.errored ErrName.VALIDATION_MISSING_PARAMETERS
      (stages, outcome)

/-! ## Key cache population (validateSig, source lines 321 to 336) -/

/-- One TXT record as returned by the DNS collaborator.  The field
`sealv` models the `seal` attribute of the record (the word seal itself is
reserved in Lean). -/
structure DnsTxtRecord where
  ka : Option String
  sealv : Option String
  p : Option String
deriving DecidableEq

/-- The per-domain cache slot: at most one key per key algorithm. -/
structure KeyEntry where
  rsa : Option String
  ec : Option String
deriving DecidableEq

/-- Truthiness of an optional string attribute. -/
def optTruthy : Option String → Bool
  | some s => !(s == "")
  | none => false

/-- A TXT record is usable when `ka`, `seal` and `p` are all truthy. -/
def usableTxt (r : DnsTxtRecord) : Bool :=
  optTruthy r.ka && optTruthy r.sealv && optTruthy r.p

/-- One iteration of the `TXTRecords.forEach` loop: a usable record
materializes the domain slot and overwrites the slot of its algorithm. -/
def cacheStep (cache : Option KeyEntry) (r : DnsTxtRecord) : Option KeyEntry :=
  if usableTxt r then
    let c := cache.getD ⟨none, none⟩
    let c := if r.ka == some "rsa" then { c with rsa := r.p } else c
    let c := if r.ka == some "ec" then { c with ec := r.p } else c
    some c
  else cache

/-- Populate the cache slot of one domain from the TXT records, in order. -/
def populateKeys (records : List DnsTxtRecord) (init : Option KeyEntry) : Option KeyEntry :=
  records.foldl cacheStep init

/-- Spec-side description of what actually ends up in the cache: the key of
the last usable record for the given algorithm. -/
def lastUsableKeySpec (alg : String) (records : List DnsTxtRecord) : Option String :=
  match records.reverse.find? (fun r => usableTxt r && r.ka == some alg) with
  | some r => r.p
  | none => none

/-- Read the rsa slot of a possibly absent cache entry. -/
def cacheRsa (c : Option KeyEntry) : Option String :=
  (c.getD ⟨none, none⟩).rsa

/-- Read the ec slot of a possibly absent cache entry. -/
def cacheEc (c : Option KeyEntry) : Option String :=
  (c.getD ⟨none, none⟩).ec

/-! ## Helper lemmas -/

theorem asString_append (l₁ l₂ : List Char) :
    (l₁ ++ l₂).asString = l₁.asString ++ l₂.asString := rfl

theorem asString_toList (s : String) : s.toList.asString = s := rfl

theorem take_drop_decomp (l : List Char) (na nb : Nat) (h1 : na ≤ nb) :
    (l.take na ++ (l.drop na).take (nb - na)) ++ (l.drop nb).take (l.length - nb) = l := by
  have h3 : (l.drop nb).take (l.length - nb) = l.drop nb := by
    rw [← List.length_drop]; exact List.take_length _
  have h4 : (l.drop na).drop (nb - na) = l.drop nb := by
    rw [List.drop_drop]; congr 1; omega
  calc (l.take na ++ (l.drop na).take (nb - na)) ++ (l.drop nb).take (l.length - nb)
      = l.take na ++ ((l.drop na).take (nb - na) ++ (l.drop na).drop (nb - na)) := by
        rw [h3, h4, List.append_assoc]
    _ = l.take na ++ l.drop na := by rw [List.take_append_drop]
    _ = l := List.take_append_drop _ _

theorem jsSubstring_decomp (s : String) (a b : Int)
    (hab : a ≤ b) (hb : b ≤ (s.length : Int)) :
    jsSubstring s 0 a ++ jsSubstring s a b ++ jsSubstring s b (s.length : Int) = s := by
  have hlen : (0 : Int) ≤ (s.length : Int) := Int.ofNat_nonneg _
  have e0 : (min (max (0 : Int) 0) (s.length : Int)).toNat = 0 := by omega
  have ea : (min (max a 0) (s.length : Int)).toNat = a.toNat := by omega
  have eb : (min (max b 0) (s.length : Int)).toNat = b.toNat := by omega
  have el : (min (max (s.length : Int) 0) (s.length : Int)).toNat = s.length := by omega
  have hl : s.toList.length = s.length := rfl
  simp only [jsSubstring, e0, ea, eb, el]
  have m1 : min 0 a.toNat = 0 := by omega
  have m2 : max 0 a.toNat = a.toNat := by omega
  have m3 : min a.toNat b.toNat = a.toNat := by omega
  have m4 : max a.toNat b.toNat = b.toNat := by omega
  have m5 : min b.toNat s.length = b.toNat := by omega
  have m6 : max b.toNat s.length = s.length := by omega
  rw [m1, m2, m3, m4, m5, m6, ← asString_toList s, ← asString_append, ← asString_append]
  congr 1
  rw [List.drop_zero, Nat.sub_zero, List.toList_asString]
  have := take_drop_decomp s.toList a.toNat b.toNat (by omega)
  rw [hl] at this
  exact this

theorem countOccur_pos_iff (s pat : String) :
    1 ≤ countOccur s pat ↔ jsIncludes s pat = true := by
  unfold countOccur countOccurAux jsIncludes
  cases h : findSub s.toList pat.toList <;> simp [h]

theorem getAttr_setAttr (m : List (String × String)) (a v k : String) :
    getAttr (setAttr m a v) k = if a == k then some v else getAttr m k := by
  induction m with
  | nil =>
    cases h : (a == k) <;> simp [setAttr, getAttr, List.find?, h]
  | cons b m ih =>
    obtain ⟨bk, bv⟩ := b
    cases h1 : (bk == a)
    · cases h2 : (bk == k)
      · simpa [setAttr, h1, getAttr, List.find?, h2] using ih
      · have hbk : bk = k := eq_of_beq h2
        have h1k : (a == k) = false := by
          apply beq_eq_false_iff_ne.mpr
          intro hak
          exact (beq_eq_false_iff_ne.mp h1) (by rw [hbk, hak])
        simp [setAttr, h1, getAttr, List.find?, h2, h1k]
    · have hba : bk = a := eq_of_beq h1
      subst hba
      cases h2 : (bk == k) <;>
        simp [setAttr, h1, getAttr, List.find?, h2]

theorem foldl_setAttr_getAttr (k : String) :
    ∀ (pairs : List (String × String)) (m0 : List (String × String)),
      getAttr (pairs.foldl (fun m kv => setAttr m kv.1 kv.2) m0) k
        = match lastValue pairs k with
          | some v => some v
          | none => getAttr m0 k
  | [], m0 => by simp [lastValue]
  | p :: ps, m0 => by
    simp only [List.foldl_cons]
    rw [foldl_setAttr_getAttr k ps (setAttr m0 p.1 p.2)]
    rcases h : lastValue ps k with _ | v
    · simp only [lastValue, h, getAttr_setAttr]
      cases hpk : (p.1 == k) <;> simp [hpk]
    · simp [lastValue, h]

theorem buildRecord_lastValue (pairs : List (String × String)) (k : String) :
    getAttr (buildRecord pairs) k = lastValue pairs k := by
  rw [buildRecord, foldl_setAttr_getAttr k pairs []]
  rcases h : lastValue pairs k with _ | v <;> simp [getAttr, List.find?]

theorem cacheRsa_cacheStep (init : Option KeyEntry) (r : DnsTxtRecord) :
    cacheRsa (cacheStep init r)
      = if usableTxt r && r.ka == some "rsa" then r.p else cacheRsa init := by
  unfold cacheStep cacheRsa
  cases hu : usableTxt r
  · simp [hu]
  · simp only [hu, if_pos, Bool.true_and]
    cases hka : (r.ka == some "rsa")
    · cases hec : (r.ka == some "ec") <;> simp [hka, hec]
    · have : r.ka = some "rsa" := eq_of_beq hka
      have hec : (r.ka == some "ec") = false := by
        rw [this]; decide
      simp [hka, hec]

theorem cacheEc_cacheStep (init : Option KeyEntry) (r : DnsTxtRecord) :
    cacheEc (cacheStep init r)
      = if usableTxt r && r.ka == some "ec" then r.p else cacheEc init := by
  unfold cacheStep cacheEc
  cases hu : usableTxt r
  · simp [hu]
  · simp only [hu, if_pos, Bool.true_and]
    cases hec : (r.ka == some "ec")
    · cases hka : (r.ka == some "rsa") <;> simp [hka, hec]
    · have : r.ka = some "ec" := eq_of_beq hec
      have hka : (r.ka == some "rsa") = false := by
        rw [this]; decide
      simp [hka, hec]

theorem populateKeys_rsa (records : List DnsTxtRecord) :
    ∀ init, cacheRsa (populateKeys records init)
      = match records.reverse.find? (fun r => usableTxt r && r.ka == some "rsa") with
        | some r => r.p
        | none => cacheRsa init := by
  induction records with
  | nil => intro init; simp [populateKeys]
  | cons r rs ih =>
    intro init
    have step : populateKeys (r :: rs) init = populateKeys rs (cacheStep init r) := by
      simp [populateKeys]
    rw [step, ih (cacheStep init r), List.reverse_cons, List.find?_append]
    rcases h : rs.reverse.find? (fun x => usableTxt x && x.ka == some "rsa") with _ | r'
    · simp only [h, Option.none_or]
      cases hp : (usableTxt r && r.ka == some "rsa") <;>
        simp [List.find?, hp, cacheRsa_cacheStep, h]
    · simp [h]

theorem populateKeys_ec (records : List DnsTxtRecord) :
    ∀ init, cacheEc (populateKeys records init)
      = match records.reverse.find? (fun r => usableTxt r && r.ka == some "ec") with
        | some r => r.p
        | none => cacheEc init := by
  induction records with
  | nil => intro init; simp [populateKeys]
  | cons r rs ih =>
    intro init
    have step : populateKeys (r :: rs) init = populateKeys rs (cacheStep init r) := by
      simp [populateKeys]
    rw [step, ih (cacheStep init r), List.reverse_cons, List.find?_append]
    rcases h : rs.reverse.find? (fun x => usableTxt x && x.ka == some "ec") with _ | r'
    · simp only [h, Option.none_or]
      cases hp : (usableTxt r && r.ka == some "ec") <;>
        simp [List.find?, hp, cacheEc_cacheStep, h]
    · simp [h]

theorem resolveRangesList_ok (g : Geometry) :
    ∀ (ts : List String) (l : List (Option Int × Option Int)),
      resolveRangesList g ts = Except.ok l →
      l.length = ts.length ∧
      ∀ (i : Nat) (hi : i < l.length) (hj : i < ts.length),
        resolveRange g (ts.get ⟨i, hj⟩) = Except.ok (l.get ⟨i, hi⟩)
  | [], l, h => by
    simp only [resolveRangesList] at h
    injection h with h
    subst h
    exact ⟨rfl, fun i hi _ => absurd hi (by simp)⟩
  | t :: ts, l, h => by
    simp only [resolveRangesList] at h
    cases h1 : resolveRange g t with
    | error e => rw [h1] at h; cases h
    | ok r =>
      rw [h1] at h
      cases h2 : resolveRangesList g ts with
      | error e => rw [h2] at h; cases h
      | ok rs =>
        rw [h2] at h
        injection h with h
        subst h
        obtain ⟨hlen, hget⟩ := resolveRangesList_ok g ts rs h2
        refine ⟨by simp [hlen], ?_⟩
        intro i hi hj
        cases i with
        | zero => simpa using h1
        | succ n =>
          simpa using hget n (by simpa using hi) (by simpa using hj)

/-! ## Claim C1 -/

/-- C1: the claim states that an endpoint token resolves to the anchor value
plus the offset for op `+` and the anchor value minus the offset for op `-`.
The code adds the offset in both cases (`start = start + add + sub`): with
asset size 100 the token `f-20` resolves to 120, not to 100 - 20 = 80.  The
`+` case behaves as claimed (`F+4` resolves to 4). -/
theorem c1_range_minus_adds_offset :
    resolveEndpoint ⟨100, 90, 10⟩ "F+4" = Except.ok (some 4) ∧
    resolveEndpoint ⟨100, 90, 10⟩ "f-20" = Except.ok (some 120) ∧
    ¬ ((120 : Int) = 100 - 20) := ⟨rfl, rfl, by decide⟩

/-! ## Claim C2 -/

/-- C2 counterexample: in a pass where the digest stage fails (and every
other collaborator would succeed), the promise settles with the digest
error, yet the double-digest and key-import stages still execute
afterwards, contradicting the claim that no further stage executes after a
failure. -/
theorem c2_counterexample :
    (runPipeline ⟨true, true, true, true, true, true, false, true, true, true, some true⟩).2
      = Outcome.errored ErrName.DIGEST_ERROR ∧
    Stage.doubleDigestStage ∈ (runPipeline ⟨true, true, true, true, true, true, false, true, true, true, some true⟩).1 ∧
    Stage.keyImport ∈ (runPipeline ⟨true, true, true, true, true, true, false, true, true, true, some true⟩).1 := by
  decide

/-- C2 (amended): the orchestrator surfaces the first encountered error to
the caller (later rejections cannot change the settled outcome), and a DNS
lookup failure aborts the remaining pipeline; but a failure of the digest,
double-digest or key-import stage does not stop the subsequent stages from
executing. -/
theorem c2_amended (env : PipelineEnv)
    (hseg : env.hasSegments = true) (hrec : env.recordComplete = true) :
    ((env.cacheHit = false ∧ (env.dnsOk = false ∨ env.usableKey = false)) →
        runPipeline env = ([Stage.dnsLookup], Outcome.errored ErrName.DNS_LOOKUP)) ∧
    ((env.cacheHit = true ∨ (env.dnsOk = true ∧ env.usableKey = true)) → env.hasRange = true →
      ((env.digestOk = false →
          (runPipeline env).2 = Outcome.errored ErrName.DIGEST_ERROR ∧
          Stage.doubleDigestStage ∈ (runPipeline env).1 ∧ Stage.keyImport ∈ (runPipeline env).1) ∧
       (env.digestOk = true → env.decodeOk = false →
          (runPipeline env).2 = Outcome.errored ErrName.DIGEST_ERROR) ∧
       (env.digestOk = true → env.decodeOk = true → env.keyImportOk = false →
          (runPipeline env).2 = Outcome.errored ErrName.KEY_IMPORT_ERROR))) := by
  obtain ⟨hs, rc, ch, dn, uk, hr, dg, dc, sn, ki, vr⟩ := env
  cases hs
  · exact absurd hseg (by simp)
  · cases rc
    · exact absurd hrec (by simp)
    · clear hseg hrec
      rcases vr with _ | b
      · cases ch <;> cases dn <;> cases uk <;> cases hr <;> cases dg <;> cases dc <;>
          cases sn <;> cases ki <;> exact ⟨by decide, by decide⟩
      · cases b <;> cases ch <;> cases dn <;> cases uk <;> cases hr <;> cases dg <;>
          cases dc <;> cases sn <;> cases ki <;> exact ⟨by decide, by decide⟩

/-- C2 witness: the amended theorem applied to the environment of the
counterexample pass. -/
theorem c2_amended_witness :
    (((⟨true, true, true, true, true, true, false, true, true, true, some true⟩ : PipelineEnv).cacheHit = false ∧
      ((⟨true, true, true, true, true, true, false, true, true, true, some true⟩ : PipelineEnv).dnsOk = false ∨
       (⟨true, true, true, true, true, true, false, true, true, true, some true⟩ : PipelineEnv).usableKey = false)) →
        runPipeline ⟨true, true, true, true, true, true, false, true, true, true, some true⟩
          = ([Stage.dnsLookup], Outcome.errored ErrName.DNS_LOOKUP)) ∧
    (((⟨true, true, true, true, true, true, false, true, true, true, some true⟩ : PipelineEnv).cacheHit = true ∨
      ((⟨true, true, true, true, true, true, false, true, true, true, some true⟩ : PipelineEnv).dnsOk = true ∧
       (⟨true, true, true, true, true, true, false, true, true, true, some true⟩ : PipelineEnv).usableKey = true)) →
     (⟨true, true, true, true, true, true, false, true, true, true, some true⟩ : PipelineEnv).hasRange = true →
      (((⟨true, true, true, true, true, true, false, true, true, true, some true⟩ : PipelineEnv).digestOk = false →
          (runPipeline ⟨true, true, true, true, true, true, false, true, true, true, some true⟩).2
            = Outcome.errored ErrName.DIGEST_ERROR ∧
          Stage.doubleDigestStage ∈ (runPipeline ⟨true, true, true, true, true, true, false, true, true, true, some true⟩).1 ∧
          Stage.keyImport ∈ (runPipeline ⟨true, true, true, true, true, true, false, true, true, true, some true⟩).1) ∧
       ((⟨true, true, true, true, true, true, false, true, true, true, some true⟩ : PipelineEnv).digestOk = true →
        (⟨true, true, true, true, true, true, false, true, true, true, some true⟩ : PipelineEnv).decodeOk = false →
          (runPipeline ⟨true, true, true, true, true, true, false, true, true, true, some true⟩).2
            = Outcome.errored ErrName.DIGEST_ERROR) ∧
       ((⟨true, true, true, true, true, true, false, true, true, true, some true⟩ : PipelineEnv).digestOk = true →
        (⟨true, true, true, true, true, true, false, true, true, true, some true⟩ : PipelineEnv).decodeOk = true →
        (⟨true, true, true, true, true, true, false, true, true, true, some true⟩ : PipelineEnv).keyImportOk = false →
          (runPipeline ⟨true, true, true, true, true, true, false, true, true, true, some true⟩).2
            = Outcome.errored ErrName.KEY_IMPORT_ERROR))) :=
  c2_amended ⟨true, true, true, true, true, true, false, true, true, true, some true⟩ rfl rfl

/-! ## Claim C3 -/

/-- C3 counterexample: for `sf="date2:hex"` and
`s="20240326164401.50deadbeef"` the extracted timestamp is the claimed
`"20240326164401.50"`, but the residual signature text is `"eadbeef"`, not
the claimed `"deadbeef"`: the code slices the residual from offset `16 + n`
(source line 648), skipping one character past the `15 + n` character
timestamp. -/
theorem c3_counterexample :
    (doubleDigestSig (some "date2:hex") "20240326164401.50deadbeef").signature_date
        = some "20240326164401.50" ∧
    (doubleDigestSig (some "date2:hex") "20240326164401.50deadbeef").signature = "eadbeef" ∧
    (doubleDigestSig (some "date2:hex") "20240326164401.50deadbeef").signature_encoding = "hex" ∧
    ¬ (("eadbeef" : String) = "deadbeef") := ⟨rfl, rfl, rfl, by decide⟩

/-- C3 (amended): for a date token whose last character parses as the digit
`n`, the timestamp is exactly the first `15 + n` characters of the stored
signature text, and the residual signature text is everything after the
first `16 + n` characters: exactly one separator character between them is
skipped, as the decomposition of the original string below shows. -/
theorem c3_amended (s f : String) (st : SigProc) (n : Int)
    (hdate : jsIncludes f "date" = true)
    (hn : jsParseInt (lastCharStr f) = some n)
    (hlen : 16 + n ≤ (s.length : Int)) :
    (processSigFormat s st f).signature_date = some (jsSubstring s 0 (15 + n)) ∧
    jsSubstring s 0 (15 + n) ++ jsSubstring s (15 + n) (16 + n)
        ++ (processSigFormat s st f).signature = s := by
  simp only [processSigFormat, hdate, hn, if_true]
  refine ⟨trivial, ?_⟩
  exact jsSubstring_decomp s (15 + n) (16 + n) (by omega) hlen

/-- C3 witness: the amended theorem applied to a signature text that does
carry the separator character the slicing expects. -/
theorem c3_amended_witness :
    (processSigFormat "20240326164401.50:deadbeef" ⟨"20240326164401.50:deadbeef", none, ""⟩ "date2").signature_date
        = some (jsSubstring "20240326164401.50:deadbeef" 0 (15 + 2)) ∧
    jsSubstring "20240326164401.50:deadbeef" 0 (15 + 2)
        ++ jsSubstring "20240326164401.50:deadbeef" (15 + 2) (16 + 2)
        ++ (processSigFormat "20240326164401.50:deadbeef" ⟨"20240326164401.50:deadbeef", none, ""⟩ "date2").signature
        = "20240326164401.50:deadbeef" :=
  c3_amended "20240326164401.50:deadbeef" "date2" ⟨"20240326164401.50:deadbeef", none, ""⟩ 2
    rfl rfl (by decide)

/-! ## Claim C4 -/

/-- C4 counterexample: two usable TXT records with the same key algorithm;
the cache ends up holding the key of the second (last-seen) record, not the
claimed first-seen one. -/
theorem c4_counterexample :
    populateKeys [⟨some "rsa", some "seal=1", some "KEY1"⟩, ⟨some "rsa", some "seal=1", some "KEY2"⟩] none
      = some ⟨some "KEY2", none⟩ ∧
    ¬ ((some "KEY2" : Option String) = some "KEY1") := ⟨rfl, by decide⟩

/-- C4 (amended): the cache stores at most one key per key algorithm per
domain (one rsa slot and one ec slot), and for each algorithm the slot
holds the key of the last usable record of that algorithm returned by the
DNS collaborator (later duplicates overwrite earlier ones). -/
theorem c4_amended (records : List DnsTxtRecord) :
    cacheRsa (populateKeys records none) = lastUsableKeySpec "rsa" records ∧
    cacheEc (populateKeys records none) = lastUsableKeySpec "ec" records := by
  constructor
  · rw [populateKeys_rsa records none, lastUsableKeySpec]
    rcases h : records.reverse.find? (fun r => usableTxt r && r.ka == some "rsa") with _ | r <;>
      simp [h, cacheRsa]
  · rw [populateKeys_ec records none, lastUsableKeySpec]
    rcases h : records.reverse.find? (fun r => usableTxt r && r.ka == some "ec") with _ | r <;>
      simp [h, cacheEc]

/-! ## Claim C5 -/

/-- C5: a segment in which `d` is missing parses to the
SEAL_RECORD_MISSING_PARAMETERS error (the claimed RecordIncomplete), and
the pass halts before any DNS or cryptographic stage executes; but because
the throw escapes the async promise executor, the promise returned by the
verification entry point never settles, so the error is never surfaced to
the caller. -/
theorem c5_parse_error_never_surfaces :
    (parseSeal ⟨"<seal seal=\"1\" ka=\"rsa\" s=\"abc\" p=\"xyz\"/>", 1000⟩).2
      = Except.error ErrName.SEAL_RECORD_MISSING_PARAMETERS ∧
    runPipeline ⟨true, false, false, true, true, true, true, true, true, true, some true⟩
      = ([], Outcome.pending) := ⟨rfl, rfl⟩

/-! ## Claim C6 -/

/-- C6 counterexample: the claim states the digest-algorithm token is
mapped case-insensitively, under which `"SHA512"` would resolve to
`"SHA-512"` (as the spec-side definition does); the code switch is
case-sensitive and sends `"SHA512"` to the default `"SHA-256"`. -/
theorem c6_counterexample :
    resolveDa (some "SHA512") = "SHA-256" ∧
    daCaseInsensitiveSpec "SHA512" = "SHA-512" ∧
    ¬ (("SHA-256" : String) = "SHA-512") := ⟨rfl, by decide, by decide⟩

/-- C6 (amended): an absent digest-algorithm attribute resolves to SHA-256,
the four exact lowercase tokens map to their algorithms, and any other
value, including uppercase or mixed-case variants of known names, falls
back to SHA-256: the mapping is case-sensitive. -/
theorem c6_amended (s : String)
    (h : ¬ (s = "sha1" ∨ s = "sha256" ∨ s = "sha384" ∨ s = "sha512")) :
    resolveDa (some s) = "SHA-256" ∧ resolveDa none = "SHA-256" ∧
    resolveDa (some "sha1") = "SHA-1" ∧ resolveDa (some "sha256") = "SHA-256" ∧
    resolveDa (some "sha384") = "SHA-384" ∧ resolveDa (some "sha512") = "SHA-512" := by
  push_neg at h
  obtain ⟨h1, h2, h3, h4⟩ := h
  refine ⟨?_, rfl, rfl, rfl, rfl, rfl⟩
  by_cases h0 : s = ""
  · subst h0; rfl
  · have e0 : (s == "") = false := beq_eq_false_iff_ne.mpr h0
    have e1 : (s == "sha256") = false := beq_eq_false_iff_ne.mpr h2
    have e2 : (s == "sha384") = false := beq_eq_false_iff_ne.mpr h3
    have e3 : (s == "sha512") = false := beq_eq_false_iff_ne.mpr h4
    have e4 : (s == "sha1") = false := beq_eq_false_iff_ne.mpr h1
    simp [resolveDa, daSwitch, e0, e1, e2, e3, e4]

/-- C6 witness: the amended theorem applied to the uppercase token of the
counterexample. -/
theorem c6_amended_witness :
    resolveDa (some "SHA512") = "SHA-256" ∧ resolveDa none = "SHA-256" ∧
    resolveDa (some "sha1") = "SHA-1" ∧ resolveDa (some "sha256") = "SHA-256" ∧
    resolveDa (some "sha384") = "SHA-384" ∧ resolveDa (some "sha512") = "SHA-512" :=
  c6_amended "SHA512" (by decide)

/-! ## Claim C7 -/

/-- C7 counterexample: the resolver enforces neither non-negativity nor
`end >= start`.  With asset size 10, signature end offset 3 and signature
length 10, the expression `f~F,S~s` yields the range `(10, 0)` with end
below start and the range `(-7, 3)` with a negative start. -/
theorem c7_counterexample :
    resolveRanges ⟨10, 3, 10⟩ "f~F,S~s" = Except.ok [(some 10, some 0), (some (-7), some 3)] ∧
    ¬ ((0 : Int) ≥ 10) ∧ ¬ ((0 : Int) ≤ -7) := ⟨rfl, by decide, by decide⟩

/-- C7 (amended): when a range expression resolves successfully, the
produced sequence has one range per comma-separated token and lists them in
the order the expression lists the tokens; the resolver performs no check
that the endpoints are non-negative or that end is at least start. -/
theorem c7_amended (g : Geometry) (b : String) (l : List (Option Int × Option Int))
    (h : resolveRanges g b = Except.ok l) :
    l.length = (jsSplit b ",").length ∧
    ∀ (i : Nat) (hi : i < l.length) (hj : i < (jsSplit b ",").length),
      resolveRange g ((jsSplit b ",").get ⟨i, hj⟩) = Except.ok (l.get ⟨i, hi⟩) :=
  resolveRangesList_ok g (jsSplit b ",") l h

/-- C7 witness: the amended theorem applied to a one-range expression. -/
theorem c7_amended_witness :
    ([((some 0 : Option Int), (some 10 : Option Int))].length = (jsSplit "F~f" ",").length) ∧
    ∀ (i : Nat) (hi : i < [((some 0 : Option Int), (some 10 : Option Int))].length)
      (hj : i < (jsSplit "F~f" ",").length),
      resolveRange ⟨10, 3, 10⟩ ((jsSplit "F~f" ",").get ⟨i, hj⟩)
        = Except.ok ([((some 0 : Option Int), (some 10 : Option Int))].get ⟨i, hi⟩) :=
  c7_amended ⟨10, 3, 10⟩ "F~f" [(some 0, some 10)] rfl

/-! ## Claim C8 -/

/-- C8 counterexample: parsing an entity-escaped segment is not free of
side effects on the asset: the parser itself shifts the caller-supplied
signature-segment end offset backward by 5 (source lines 210 to 212),
so the claim that the shift is a caller-side precondition rather than an
action of the parser is false. -/
theorem c8_counterexample :
    (parseSeal ⟨"<seal seal=&quot;1&quot; d=&quot;ex.com&quot; ka=&quot;rsa&quot; s=&quot;abc&quot;/>", 500⟩).1.signatureEnd = 495 ∧
    ¬ ((495 : Int) = 500) := ⟨rfl, by decide⟩

/-- C8 (amended): the parser itself performs the offset adjustment: it
leaves the segment text unchanged but decreases the signature-segment end
offset by exactly 5 when the raw segment contains at least one `&quot;`
(regardless of how many occurrences there are), and leaves it unchanged
otherwise. -/
theorem c8_amended (seg : Segment) :
    (parseSeal seg).1.segString = seg.segString ∧
    (parseSeal seg).1.signatureEnd
      = seg.signatureEnd - (if 1 ≤ countOccur seg.segString "&quot;" then 5 else 0) := by
  unfold parseSeal
  cases h : jsIncludes seg.segString "&quot;"
  · have hc : ¬ (1 ≤ countOccur seg.segString "&quot;") := by
      rw [countOccur_pos_iff]; simp [h]
    simp only [h, Bool.false_eq_true, if_false, if_neg hc]
    split <;> simp
  · have hc : 1 ≤ countOccur seg.segString "&quot;" := (countOccur_pos_iff _ _).mpr h
    simp only [h, if_true, if_pos hc]
    split <;> simp

/-! ## Claim C9 -/

/-- C9: when the byte-range attribute is absent the digest stage computes
no digest, but the digest promise never settles (neither resolve nor
reject is called), so the verification pass hangs instead of completing
with a nothing-to-verify outcome: the await on the digest stage never
resumes and no later stage executes. -/
theorem c9_absent_range_never_settles :
    digestRun ⟨100, 90, 10⟩ none true = DigestOutcome.neverSettles ∧
    runPipeline ⟨true, true, true, true, true, false, true, true, true, true, some true⟩
      = ([Stage.digestStage], Outcome.pending) := ⟨rfl, rfl⟩

/-! ## Claim C10 -/

/-- C10: when the same attribute key occurs several times among the
extracted pairs of a record segment, the parsed record holds the value of
the last (rightmost) occurrence: the assignment loop overwrites earlier
values; illustrated through the full parser on a segment with a duplicated
`d` attribute. -/
theorem c10_last_occurrence_wins :
    (∀ (pairs : List (String × String)) (k : String),
        getAttr (buildRecord pairs) k = lastValue pairs k) ∧
    (match (parseSeal ⟨"<seal seal=\"1\" d=\"first.com\" d=\"second.com\" ka=\"rsa\" s=\"abc\"/>", 0⟩).2 with
      | Except.ok r => getAttr r "d"
      | Except.error _ => none) = some "second.com" :=
  ⟨buildRecord_lastValue, rfl⟩
